import Mathlib

/-!
Verification development for the VibeCoder Academy client.

Shallow embedding of the repository's core components:
* the drawing-command interpreter (`GamePreview`, canvas effect),
* the protocol adapter (`callGeminiAPI` request building and response handling),
* the tutoring state machine (`handleRunCode` / `handleSendMessage` in the App),
* the code-assist engine (`updateSuggestions` in the CodeEditor).

Conventions: JavaScript numbers that only flow through (coordinates, sizes)
are modelled as `Int`; optional / possibly-`undefined` fields as `Option`;
a rejected promise as `Except.error`.  React `setX` state updates are modelled
by returning the post-transition state record.
-/

namespace Vibe

/-! ## Drawing-command interpreter (GamePreview)

`DrawingCommand` mirrors the tagged interface of the batch-based GamePreview:
`type: 'fill' | 'circle' | 'rect' | 'text' | 'clear'` with optional fields.
-/

inductive CmdType where
  | fill | circle | rect | text | clear
  deriving DecidableEq, Repr

structure DrawingCommand where
  type : CmdType
  color : Option String := none
  x : Option Int := none
  y : Option Int := none
  radius : Option Int := none
  width : Option Int := none
  height : Option Int := none
  text : Option String := none
  deriving DecidableEq, Repr

/-- A primitive paint operation actually issued to the 2d canvas context.
Each painting op records the fill style in effect when it was issued
(`fillText` paints with the current `fillStyle`; the font / textAlign
assignments are presentational and carried implicitly). -/
inductive PaintOp where
  | clearAll
  | fillRect (color : String) (x y w h : Int)
  | fillCircle (color : String) (x y r : Int)
  | fillText (color : String) (s : String) (x y : Int)
  deriving DecidableEq, Repr

/-- The piece of mutable canvas-context state the command switch depends on:
only `fillStyle` is both written and later read (the `rect` case paints with
whatever fill style the previous command left behind).  `strokeStyle` is
assigned in the `circle` case but never read, so it is not tracked. -/
structure CanvasCtx where
  fillStyle : String
  deriving DecidableEq, Repr

/-- One iteration of the `latestCommands.forEach` switch.  Returns the
updated context together with the paint operations issued.
* `fill`: fall back to `#000000` when the color is missing, empty or the
  literal string `undefined`; set `fillStyle` and cover the whole canvas.
* `circle`: `fillStyle = cmd.color || '#FFFFFF'` happens before the
  coordinate guard, so the style changes even when nothing is painted.
* `rect`: paints with the current fill style only when all four fields
  are defined (no `fillStyle` assignment of its own).
* `text`: paints only when `x`, `y` are defined and `text` is truthy
  (a present but empty string is falsy in JavaScript).
* `clear` falls into the silently-skipped `default` branch. -/
def execCmd (ctx : CanvasCtx) (cmd : DrawingCommand) : CanvasCtx × List PaintOp :=
  match cmd.type with
  | .fill =>
      let fillColor :=
        match cmd.color with
        | none => "#000000"
        | some c => if c = "" ∨ c = "undefined" then "#000000" else c
      (⟨fillColor⟩, [.fillRect fillColor 0 0 800 600])
  | .circle =>
      let col :=
        match cmd.color with
        | none => "#FFFFFF"
        | some c => if c = "" then "#FFFFFF" else c
      let ctx' : CanvasCtx := ⟨col⟩
      match cmd.x, cmd.y, cmd.radius with
      | some px, some py, some r => (ctx', [.fillCircle col px py r])
      | _, _, _ => (ctx', [])
  | .rect =>
      match cmd.x, cmd.y, cmd.width, cmd.height with
      | some px, some py, some w, some h => (ctx, [.fillRect ctx.fillStyle px py w h])
      | _, _, _, _ => (ctx, [])
  | .text =>
      match cmd.x, cmd.y, cmd.text with
      | some px, some py, some s =>
          if s = "" then (ctx, []) else (ctx, [.fillText ctx.fillStyle s px py])
      | _, _, _ => (ctx, [])
  | .clear => (ctx, [])

/-- Execute a batch of commands in list order, threading the context. -/
def execCmds (ctx : CanvasCtx) : List DrawingCommand → List PaintOp
  | [] => []
  | c :: rest =>
      let r := execCmd ctx c
      r.2 ++ execCmds r.1 rest

/-- The retro scanline overlay painted after the batch:
`for (i = 0; i < 600; i += 4) fillRect(0, i, 800, 2)` with style
`rgba(0,0,0,0.1)` — 150 thin rectangles, none covering the canvas. -/
def scanlineOps : List PaintOp :=
  (List.range 150).map (fun i => .fillRect "rgba(0,0,0,0.1)" 0 (4 * (i : Int)) 800 2)

/-- The canvas effect of the batch-based GamePreview.
* Empty batch list: paint the fixed placeholder frame (grey background and
  the localized "OS not loaded" text) and return early — no clear, no
  commands, no scanlines.
* Otherwise: clear, paint the default black background, replay only
  `visualState[visualState.length - 1]` in list order, then the scanlines.
  The initial tracked fill style is the `#000000` just assigned. -/
def renderOps (osNotLoaded : String) (visualState : List (List DrawingCommand)) :
    List PaintOp :=
  match visualState with
  | [] => [.fillRect "#333" 0 0 800 600, .fillText "#666" osNotLoaded 400 300]
  | _ :: _ =>
      let latestCommands := visualState.getD (visualState.length - 1) []
      .clearAll :: .fillRect "#000000" 0 0 800 600 ::
        (execCmds ⟨"#000000"⟩ latestCommands ++ scanlineOps)

/-- The color left covering the whole frame: the last operation that painted
the full 800×600 canvas (a full-canvas `fillRect` sets it, `clearAll`
resets it, partial paints keep it). -/
def frameBackground (ops : List PaintOp) : Option String :=
  ops.foldl
    (fun acc op =>
      match op with
      | .fillRect c 0 0 800 600 => some c
      | .clearAll => none
      | _ => acc)
    none

/-- Does the operation paint text? Used to state that the placeholder text
is absent from a rendered frame. -/
def PaintOp.paintsText : PaintOp → Bool
  | .fillText _ _ _ _ => true
  | _ => false

/-- The batch rendered is `visualState[visualState.length - 1]`: appending a
final batch makes that index select it. -/
lemma getD_last_append {α : Type} (l : List α) (b d : α) :
    (l ++ [b]).getD ((l ++ [b]).length - 1) d = b := by
  have hlen : (l ++ [b]).length - 1 = l.length := by simp
  rw [hlen, List.getD_eq_getElem?_getD, List.getElem?_append_right (Nat.le_refl _)]
  simp

lemma renderOps_append_last (os : String) (bs : List (List DrawingCommand))
    (b : List DrawingCommand) : renderOps os (bs ++ [b]) = renderOps os [b] := by
  cases bs with
  | nil => rfl
  | cons x xs =>
      show renderOps os (x :: (xs ++ [b])) = renderOps os [b]
      simp only [renderOps]
      rw [show x :: (xs ++ [b]) = (x :: xs) ++ [b] from rfl, getD_last_append]
      rfl

/-- Commands whose tag is `clear` contribute nothing to the paint stream and
leave the context untouched, so filtering them out of a batch is invisible. -/
lemma execCmds_filter_clear (b : List DrawingCommand) (ctx : CanvasCtx) :
    execCmds ctx (b.filter (fun c => c.type != CmdType.clear)) = execCmds ctx b := by
  induction b generalizing ctx with
  | nil => rfl
  | cons c rest ih =>
      by_cases h : c.type = CmdType.clear
      · have hdrop : (c :: rest).filter (fun c => c.type != CmdType.clear) =
            rest.filter (fun c => c.type != CmdType.clear) := by
          simp [List.filter, h]
        have hexec : execCmd ctx c = (ctx, []) := by
          unfold execCmd; rw [h]
        rw [hdrop, ih, execCmds, hexec]
        rfl
      · have hkeep : (c :: rest).filter (fun c => c.type != CmdType.clear) =
            c :: rest.filter (fun c => c.type != CmdType.clear) := by
          rw [List.filter_cons]
          simp [h]
        rw [hkeep, execCmds, execCmds, ih]

/-- Rendering a singleton batch list, with the latest-batch index resolved. -/
lemma renderOps_singleton (os : String) (b : List DrawingCommand) :
    renderOps os [b] =
      .clearAll :: .fillRect "#000000" 0 0 800 600 ::
        (execCmds ⟨"#000000"⟩ b ++ scanlineOps) := rfl

/-- The concrete blue-fill command of the spec's example. -/
def fillBlueCmd : DrawingCommand := { type := CmdType.fill, color := some "#0000FF" }

/-- C5: render replays only the commands of the last batch, in list order, on
a freshly cleared frame; in particular for batches ending in
`[[fill #0000FF]]` the frame background is `#0000FF` and no text (hence no
placeholder text) is painted, regardless of earlier batches. -/
theorem render_last_batch_only :
    (∀ os bs b, renderOps os (bs ++ [b]) = renderOps os [b]) ∧
    (∀ os bs, frameBackground (renderOps os (bs ++ [[fillBlueCmd]])) = some "#0000FF") ∧
    (∀ os bs, (renderOps os (bs ++ [[fillBlueCmd]])).all (fun op => !op.paintsText) = true) := by
  refine ⟨renderOps_append_last, fun os bs => ?_, fun os bs => ?_⟩
  · rw [renderOps_append_last]; rfl
  · rw [renderOps_append_last]; rfl

/-- C6: with an empty batch list, render produces exactly the fixed
placeholder frame — the grey background and the localized placeholder text —
and executes no drawing commands (no clear, no scanlines, nothing else). -/
theorem render_empty_placeholder (os : String) :
    renderOps os ([] : List (List DrawingCommand)) =
      [PaintOp.fillRect "#333" 0 0 800 600, PaintOp.fillText "#666" os 400 300] := rfl

/-- C10: the declared `clear` variant is a no-op: removing every `clear`
command from the last batch renders the same paint stream, and a `clear`
command leaves the context unchanged while emitting nothing (the
silently-skipped `default` branch). -/
theorem clear_command_is_noop :
    (∀ os bs b,
      renderOps os (bs ++ [b.filter (fun c => c.type != CmdType.clear)]) =
        renderOps os (bs ++ [b])) ∧
    (∀ (ctx : CanvasCtx) color px py r w h s,
      execCmd ctx { type := CmdType.clear, color := color, x := px, y := py,
                    radius := r, width := w, height := h, text := s } = (ctx, [])) := by
  constructor
  · intro os bs b
    rw [renderOps_append_last, renderOps_append_last, renderOps_singleton,
      renderOps_singleton, execCmds_filter_clear]
  · intro ctx color px py r w h s
    rfl

/-! ## Protocol adapter (callGeminiAPI): request building

A conversation turn of the internal payload: `{role, parts:[{text}]}` with a
single text part (every call site builds exactly one part per turn). -/

structure Turn where
  role : String
  text : String
  deriving DecidableEq, Repr

/-- The payload handed to `callGeminiAPI`: ordered turns plus an optional
system instruction string. -/
structure ApiPayload where
  contents : List Turn
  systemInstruction : Option String := none
  deriving DecidableEq, Repr

/-- One OpenAI-compatibility message `{role, content}`. -/
structure Msg where
  role : String
  content : String
  deriving DecidableEq, Repr

/-- `baseUrl.replace(/\/$/, '')`: strip one trailing slash if present. -/
def stripTrailingSlash (s : String) : String :=
  if s.endsWith "/" then s.dropRight 1 else s

/-- `haystack.includes(needle)` on character lists. -/
def charsInclude (needle : List Char) : List Char → Bool
  | [] => needle.isEmpty
  | c :: rest => needle.isPrefixOf (c :: rest) || charsInclude needle rest

/-- JavaScript `String.prototype.includes`. -/
def strIncludes (s needle : String) : Bool :=
  charsInclude needle.data s.data

/-- `content.role === 'model' ? 'assistant' : content.role` together with
`content.parts?.[0]?.text || ''`. -/
def toCompatMsg (t : Turn) : Msg :=
  { role := if t.role = "model" then "assistant" else t.role, content := t.text }

def jsonReminderText : String := "You MUST respond with valid JSON."

/-- JSON mode for the compatibility protocol: when a schema was requested and
no system message already mentions "JSON", either append the reminder clause
to a leading system message (`messages.length > 0 && messages[0].role ===
'system'`) or insert a new leading system message. -/
def adjustForJsonMode (hasSchema : Bool) (messages : List Msg) : List Msg :=
  if !hasSchema then messages
  else if messages.any (fun m => m.role == "system" && strIncludes m.content "JSON") then
    messages
  else
    match messages with
    | m :: rest =>
        if m.role == "system" then
          { role := "system", content := m.content ++ " " ++ jsonReminderText } :: rest
        else
          { role := "system", content := jsonReminderText } :: m :: rest
    | [] => [{ role := "system", content := jsonReminderText }]

/-- The two wire-request bodies the adapter can build.  `compat` carries the
flat ordered message list and the generic JSON-object response-mode flag
(`response_format: json_object`; the constant `temperature: 0.7` is not
modelled).  `native` carries the role-preserving `contents` turns, the
separate `systemInstruction` field (its `{parts:[{text}]}` wrapper elided to
the text), and the generation-config response mime type plus whether a
response schema is attached. -/
inductive WireBody where
  | compat (model : String) (messages : List Msg) (jsonMode : Bool)
  | native (contents : List Turn) (systemInstruction : Option String)
      (responseMimeType : String) (hasResponseSchema : Bool)
  deriving DecidableEq, Repr

/-- The outbound HTTP request: URL (the native URL embeds the credential as
a query parameter), optional bearer `Authorization` header, body. -/
structure BuiltRequest where
  url : String
  authorization : Option String
  body : WireBody
  deriving DecidableEq, Repr

/-- Request construction of `callGeminiAPI`: the strategy is selected by
whether `GEMINI_BASE_URL` is non-empty after stripping a trailing slash
(`isOpenAICompatible = !!baseUrl`). -/
def buildRequest (apiKey model : String) (geminiBaseUrlEnv : Option String)
    (payload : ApiPayload) (hasSchema : Bool) : BuiltRequest :=
  let baseUrl := stripTrailingSlash (geminiBaseUrlEnv.getD "")
  if baseUrl ≠ "" then
    let messages :=
      (match payload.systemInstruction with
       | some si => [{ role := "system", content := si }]
       | none => ([] : List Msg)) ++ payload.contents.map toCompatMsg
    { url := baseUrl ++ "/v1/chat/completions",
      authorization := some ("Bearer " ++ apiKey),
      body := .compat model (adjustForJsonMode hasSchema messages) hasSchema }
  else
    { url := "https://generativelanguage.googleapis.com/v1beta/models/" ++ model ++
        ":generateContent?key=" ++ apiKey,
      authorization := none,
      body := .native payload.contents payload.systemInstruction
        (if hasSchema then "application/json" else "text/plain") hasSchema }

/-- When the message list starts with the system-instruction message, the
JSON-mode adjustment either leaves it alone or appends the reminder clause
to that first message; the rest of the list is untouched. -/
lemma adjustForJsonMode_sys_head (hasSchema : Bool) (si : String) (rest : List Msg) :
    adjustForJsonMode hasSchema ({ role := "system", content := si } :: rest) =
        { role := "system", content := si } :: rest ∨
    adjustForJsonMode hasSchema ({ role := "system", content := si } :: rest) =
        { role := "system", content := si ++ " " ++ jsonReminderText } :: rest := by
  unfold adjustForJsonMode
  by_cases hs : hasSchema
  · rw [hs]
    by_cases hany : (({ role := "system", content := si } : Msg) :: rest).any
        (fun m => m.role == "system" && strIncludes m.content "JSON") = true
    · left; simp [hany]
    · right
      simp only [Bool.not_eq_true] at hany
      simp [hany]
  · left
    simp only [Bool.not_eq_true] at hs
    simp [hs]

/-- When no message in the list has the system role, the JSON-mode
adjustment prepends at most one system message and keeps the list intact. -/
lemma adjustForJsonMode_no_sys (hasSchema : Bool) (msgs : List Msg)
    (hroles : ∀ m ∈ msgs, m.role = "user" ∨ m.role = "assistant") :
    ∃ pre, (∀ m ∈ pre, m.role = "system") ∧
      adjustForJsonMode hasSchema msgs = pre ++ msgs := by
  by_cases hs : hasSchema
  · have hany : msgs.any
        (fun m => m.role == "system" && strIncludes m.content "JSON") = false := by
      rw [List.any_eq_false]
      intro m hm
      rcases hroles m hm with h | h <;> simp [h]
    refine ⟨[{ role := "system", content := jsonReminderText }], by simp, ?_⟩
    unfold adjustForJsonMode
    rw [hs]
    simp only [Bool.not_true, Bool.false_eq_true, if_false, hany,
      Bool.false_eq_true, if_false]
    cases hm : msgs with
    | nil => rfl
    | cons m rest =>
        have hns : (m.role == "system") = false := by
          rcases hroles m (by rw [hm]; exact List.mem_cons_self m rest) with h | h <;>
            simp [h]
        simp [hns]
  · simp only [Bool.not_eq_true] at hs
    exact ⟨[], by simp, by simp [adjustForJsonMode, hs]⟩

/-- Every call site only ever passes turns whose role is user or model, so
the renamed compatibility roles are user or assistant. -/
lemma toCompatMsg_roles (contents : List Turn)
    (hroles : ∀ t ∈ contents, t.role = "user" ∨ t.role = "model") :
    ∀ m ∈ contents.map toCompatMsg, m.role = "user" ∨ m.role = "assistant" := by
  intro m hm
  rcases List.mem_map.mp hm with ⟨t, ht, rfl⟩
  rcases hroles t ht with h | h
  · left; simp [toCompatMsg, h]
  · right; simp [toCompatMsg, h]

/-- C7: the compatibility-shaped request is built exactly when an alternate
base address is configured (non-empty after normalization), with the system
instruction leading a flat message list, the model role renamed to
assistant, and the credential as a bearer header; otherwise the native
request is built, with role-preserving turns, the system instruction as a
separate field and the credential as a query parameter of a fixed host.
The role hypothesis records that every caller passes only user/model turns. -/
theorem buildRequest_mode_selection (apiKey model : String)
    (env : Option String) (payload : ApiPayload) (hasSchema : Bool)
    (hroles : ∀ t ∈ payload.contents, t.role = "user" ∨ t.role = "model") :
    (stripTrailingSlash (env.getD "") ≠ "" →
      ∃ msgs,
        buildRequest apiKey model env payload hasSchema =
          { url := stripTrailingSlash (env.getD "") ++ "/v1/chat/completions",
            authorization := some ("Bearer " ++ apiKey),
            body := .compat model msgs hasSchema } ∧
        (∀ si, payload.systemInstruction = some si →
          msgs = { role := "system", content := si } ::
              payload.contents.map toCompatMsg ∨
          msgs = { role := "system", content := si ++ " " ++ jsonReminderText } ::
              payload.contents.map toCompatMsg) ∧
        (payload.systemInstruction = none →
          ∃ pre, (∀ m ∈ pre, m.role = "system") ∧
            msgs = pre ++ payload.contents.map toCompatMsg)) ∧
    (stripTrailingSlash (env.getD "") = "" →
      buildRequest apiKey model env payload hasSchema =
        { url := "https://generativelanguage.googleapis.com/v1beta/models/" ++ model ++
            ":generateContent?key=" ++ apiKey,
          authorization := none,
          body := .native payload.contents payload.systemInstruction
            (if hasSchema then "application/json" else "text/plain") hasSchema }) := by
  constructor
  · intro hne
    unfold buildRequest
    rw [if_pos hne]
    refine ⟨_, rfl, ?_, ?_⟩
    · intro si hsi
      rw [hsi]
      exact adjustForJsonMode_sys_head hasSchema si (payload.contents.map toCompatMsg)
    · intro hnone
      rw [hnone]
      simpa using adjustForJsonMode_no_sys hasSchema (payload.contents.map toCompatMsg)
        (toCompatMsg_roles payload.contents hroles)
  · intro heq
    unfold buildRequest
    rw [if_neg (by simp [heq])]

/-- A concrete payload used to witness the mode-selection theorem. -/
def payloadW : ApiPayload :=
  { contents := [{ role := "user", text := "hello" }, { role := "model", text := "hi" }],
    systemInstruction := some "Be a kind tutor." }

/-- C7 witness at a concrete configuration. -/
theorem buildRequest_mode_selection_witness :
    (stripTrailingSlash ((some "https://hub.example/v1x/").getD "") ≠ "" →
      ∃ msgs,
        buildRequest "key123" "gemini-2.5-flash" (some "https://hub.example/v1x/")
            payloadW true =
          { url := stripTrailingSlash ((some "https://hub.example/v1x/").getD "") ++
              "/v1/chat/completions",
            authorization := some ("Bearer " ++ "key123"),
            body := .compat "gemini-2.5-flash" msgs true } ∧
        (∀ si, payloadW.systemInstruction = some si →
          msgs = { role := "system", content := si } ::
              payloadW.contents.map toCompatMsg ∨
          msgs = { role := "system", content := si ++ " " ++ jsonReminderText } ::
              payloadW.contents.map toCompatMsg) ∧
        (payloadW.systemInstruction = none →
          ∃ pre, (∀ m ∈ pre, m.role = "system") ∧
            msgs = pre ++ payloadW.contents.map toCompatMsg)) ∧
    (stripTrailingSlash ((some "https://hub.example/v1x/").getD "") = "" →
      buildRequest "key123" "gemini-2.5-flash" (some "https://hub.example/v1x/")
          payloadW true =
        { url := "https://generativelanguage.googleapis.com/v1beta/models/" ++
            "gemini-2.5-flash" ++ ":generateContent?key=" ++ "key123",
          authorization := none,
          body := .native payloadW.contents payloadW.systemInstruction
            (if true then "application/json" else "text/plain") true }) :=
  buildRequest_mode_selection "key123" "gemini-2.5-flash"
    (some "https://hub.example/v1x/") payloadW true (by decide)

/-! ## Protocol adapter (callGeminiAPI): response handling

Structured model of the decoded JSON payload, with `Option` for fields the
payload may lack.  The native extraction reads
`data.candidates[0].content.parts[0].text`; the `content` member is accessed
without a guard, so a candidate lacking it makes the extraction throw
(modelled as `Except.error`). -/

structure NPart where
  text : Option String := none
  deriving DecidableEq, Repr

structure NContent where
  parts : List NPart
  deriving DecidableEq, Repr

structure NCandidate where
  content : Option NContent := none
  deriving DecidableEq, Repr

structure NativeData where
  candidates : Option (List NCandidate) := none
  deriving DecidableEq, Repr

structure CompatMsgObj where
  content : Option String := none
  deriving DecidableEq, Repr

structure CompatChoice where
  message : Option CompatMsgObj := none
  deriving DecidableEq, Repr

structure CompatData where
  choices : Option (List CompatChoice) := none
  deriving DecidableEq, Repr

/-- Native envelope: `candidates && candidates.length > 0 &&
candidates[0].content.parts.length > 0` guards returning
`candidates[0].content.parts[0].text`; every other guarded path falls
through to `return null` (`Except.ok none`). -/
def extractNativeText (d : NativeData) : Except Unit (Option String) :=
  match d.candidates with
  | some (c :: _) =>
      match c.content with
      | none => .error ()
      | some cont =>
          match cont.parts with
          | p :: _ => .ok p.text
          | [] => .ok none
  | _ => .ok none

/-- Compatibility envelope: `choices && choices.length > 0 &&
choices[0].message` guards returning `choices[0].message.content`; the
fall-through is `return null`. -/
def extractCompatText (d : CompatData) : Option String :=
  match d.choices with
  | some (c :: _) =>
      match c.message with
      | some m => m.content
      | none => none
  | _ => none

/-- How a `callGeminiAPI` invocation can fail: a non-success HTTP status
(`throw Error with status and statusText`), or an exception thrown while
reading the payload (re-thrown by the surrounding catch). -/
inductive AdapterError where
  | serviceError (status : Nat)
  | thrown
  deriving DecidableEq, Repr

/-- Response disposition in native mode: non-success status throws; a success
status yields the extracted text, `none` standing for the `return null`
fall-through. -/
def handleNativeResponse (ok : Bool) (status : Nat) (d : NativeData) :
    Except AdapterError (Option String) :=
  if !ok then .error (.serviceError status)
  else
    match extractNativeText d with
    | .error _ => .error .thrown
    | .ok t => .ok t

/-- Response disposition in compatibility mode. -/
def handleCompatResponse (ok : Bool) (status : Nat) (d : CompatData) :
    Except AdapterError (Option String) :=
  if !ok then .error (.serviceError status)
  else .ok (extractCompatText d)

/-- The two contract-decoding callers — `generateTutorResponse` and
`runPythonCode` — check `if (!text) throw new Error("No response from AI")`
inside their own try: there a missing, null or empty text is converted into
a failure (caught below and replaced by the canned fallback).  The third
caller, `explainPythonError`, has no such check. -/
def contractCallerRejects : Except AdapterError (Option String) → Bool
  | .ok (some t) => t == ""
  | .ok none => true
  | .error _ => true

/-- `explainPythonError`'s handling of the adapter outcome: the resolved
text — including a null — is returned to the app unconverted, and only a
rejection is caught and replaced by null.  (The app then substitutes its own
canned text via `explanation || t.errorDetected`.) -/
def explainPythonError : Except AdapterError (Option String) → Option String
  | .ok t => t
  | .error _ => none

/-- C8 counterexample: a success-status payload with no `candidates`
(native) or no `choices` (compatibility) field makes the adapter RETURN the
value `null` (`Except.ok none`) — it does not fail, contradicting the claim
that it fails with EmptyResponseError rather than returning a value. -/
theorem extract_missing_envelope_returns_null :
    handleNativeResponse true 200 { candidates := none } = Except.ok none ∧
    handleCompatResponse true 200 { choices := none } = Except.ok none := ⟨rfl, rfl⟩

/-- C8 amended: on a success-status response lacking the expected envelope
field, the adapter resolves with a null text rather than failing.  The two
contract-decoding callers (`generateTutorResponse`, `runPythonCode`) reject
the null via their `if not text then throw` checks, so they never produce a
text value from it; the third caller, `explainPythonError`, has no such
check and forwards the null to the app unconverted. -/
theorem missing_envelope_null_result (status : Nat) (dn : NativeData)
    (dc : CompatData) (hn : dn.candidates = none) (hc : dc.choices = none) :
    handleNativeResponse true status dn = Except.ok none ∧
    handleCompatResponse true status dc = Except.ok none ∧
    contractCallerRejects (handleNativeResponse true status dn) = true ∧
    contractCallerRejects (handleCompatResponse true status dc) = true ∧
    explainPythonError (handleNativeResponse true status dn) = none := by
  have h1 : handleNativeResponse true status dn = Except.ok none := by
    unfold handleNativeResponse extractNativeText
    rw [hn]
    rfl
  have h2 : handleCompatResponse true status dc = Except.ok none := by
    unfold handleCompatResponse extractCompatText
    rw [hc]
    rfl
  exact ⟨h1, h2, by rw [h1]; rfl, by rw [h2]; rfl, by rw [h1]; rfl⟩

/-- C8 amended, witness at a concrete response. -/
theorem missing_envelope_null_result_witness :
    handleNativeResponse true 200 { candidates := none } = Except.ok none ∧
    handleCompatResponse true 200 { choices := none } = Except.ok none ∧
    contractCallerRejects (handleNativeResponse true 200 { candidates := none }) = true ∧
    contractCallerRejects (handleCompatResponse true 200 { choices := none }) = true ∧
    explainPythonError (handleNativeResponse true 200 { candidates := none }) = none :=
  missing_envelope_null_result 200 { candidates := none } { choices := none } rfl rfl

/-! ## Tutoring state machine (the App component)

State and transitions of the playing session.  React state hooks become
fields of `AppState`; the `setX` calls of one handler are collapsed into a
single state-to-state function.  The `id` fields of chat messages
(`Date.now()` keys) are presentational and omitted. -/

inductive Lang where
  | zh | en
  deriving DecidableEq, Repr

inductive Role where
  | user | model
  deriving DecidableEq, Repr

structure ChatMessage where
  role : Role
  text : String
  pythonCode : Option String := none
  isCorrect : Option Bool := none
  visualAction : Option String := none
  deriving DecidableEq, Repr

/-- Guide focus values of the App: INPUT / RUN / FINISH. -/
inductive GuideFocus where
  | INPUT | RUN | FINISH
  deriving DecidableEq, Repr

structure LevelStep where
  instruction : String
  hint : String
  expectedAction : String
  pythonSnippet : String
  deriving DecidableEq, Repr

structure Level where
  id : Nat
  worldId : Nat
  title : String
  steps : List LevelStep
  deriving DecidableEq, Repr

/-- The localized UI strings consumed by the run handler
(`getTranslation(language)`); the i18n table itself is static content, so
the fields stay abstract strings. -/
structure Translations where
  running : String
  executionError : String
  errorDetected : String
  executionSuccess : String
  nextStep : String
  allStepsDone : String
  deriving DecidableEq, Repr

/-- The decoded execution contract of the current gemini service
(`executionSchema`): console text, the two judgement flags and the drawing
command list.  Being parsed JSON the object is open, so the `visualAction`
key the App still reads is carried as an optional field (the current service
never sets it; the superseded one did). -/
structure ExecResult where
  consoleOutput : String
  isSuccess : Bool
  isObjectiveMet : Bool
  drawingCommands : List DrawingCommand
  visualAction : Option String := none
  deriving DecidableEq, Repr

/-- The decoded tutoring contract (`responseSchema`). -/
structure TutorJudgement where
  message : String
  pythonCode : Option String := none
  isStepComplete : Bool
  visualAction : Option String := none
  correction : Option String := none
  deriving DecidableEq, Repr

/-- The playing-session state of the App. -/
structure AppState where
  currentLevel : Option Level
  currentStepIndex : Nat
  chatHistory : List ChatMessage
  input : String
  isLoading : Bool
  code : String
  visualState : List String
  isLevelFinished : Bool
  guideFocus : GuideFocus
  isRunningCode : Bool
  consoleOutput : String
  deriving DecidableEq, Repr

/-- The canned fallback reply of `generateTutorResponse`; `errorMsg` in the
service, selected by language.  (The source literals are kept verbatim,
including their mangled encoding.) -/
def tutorFallbackText : Lang → String
  | .zh => "\u00C1\u2265\u00FC\u00C1\u2265\u00EF\u00D4\u00BA\u00C5\u00CA\u00E0\u00EB\u00C1\u00F6\u00D1\u00C8\u00C4\u00F6\u00CB\u00C6\u00D8\u00C1\u222B\u00F8\u00CB\u2211\u00D8\u00C2\u2020\u00B5\u00C2\u00B0\u00FB\u2030\u222B\u00DC\u201E\u00C4\u00C7\u2030\u03A9\u2020\u00CB\u00C9\u03A9\u00C2\u00DC\u00E7\u00CB\u00D8\u00A5\u2030\u220F\u00C4\u00C8\u00C5\u00E7\u00C2\u00EA\u00F3\u00D4\u00BA\u00FC\uF8FF\u00FC\u00A7\u00F1"
  | .en => "Oh no! My communication circuits are jammed. Can you try saying that again? \uF8FF\u00FC\u00A7\u00F1"

/-- The canned fallback execution result returned by `runPythonCode` when
the adapter call, the null check or `JSON.parse` fails. -/
def execFallback : ExecResult :=
  { consoleOutput := "Runtime Error: Connection to interpreter lost.",
    isSuccess := false,
    isObjectiveMet := false,
    drawingCommands := [] }

/-- `runPythonCode`: an adapter/decode failure (`Except.error` carries the
raw error text) is caught inside the service and replaced by the canned
fallback result, so the caller always receives a result. -/
def runPythonCode (outcome : Except String ExecResult) : ExecResult :=
  match outcome with
  | .ok r => r
  | .error _ => execFallback

/-- `generateTutorResponse`: an adapter/decode failure is caught inside the
service and replaced by a judgement holding only the canned localized
apology and `isStepComplete: false`. -/
def generateTutorResponse (lang : Lang) (outcome : Except String TutorJudgement) :
    TutorJudgement :=
  match outcome with
  | .ok r => r
  | .error _ => { message := tutorFallbackText lang, isStepComplete := false }

/-- Does `handleRunCode` reach the adapter?  The only guard is
`if (!currentLevel || isRunningCode) return` — the code buffer is not
inspected. -/
def runRequestIssuesCall (s : AppState) : Bool :=
  s.currentLevel.isSome && !s.isRunningCode

/-- `handleRunCode`: outcome of the execution-simulation call and, for the
failure leg, the best-effort `explainPythonError` text (`none` models its
internal catch returning null).  Collapses the transient
`setIsRunningCode(true)` / `setConsoleOutput(t.running)` with the final
values they are overwritten by; the chat message scheduled on the 1s
timeout is included in the resulting state (single-threaded event loop,
closure reading the pre-increment `currentStepIndex`).  The outer catch is
unreachable because both service calls catch internally. -/
def handleRunCode (t : Translations) (s : AppState)
    (outcome : Except String ExecResult) (explainOutcome : Option String) : AppState :=
  match s.currentLevel with
  | none => s
  | some lvl =>
      if s.isRunningCode then s
      else
        let result := runPythonCode outcome
        let s1 := { s with consoleOutput := result.consoleOutput }
        let s2 :=
          if result.isSuccess then
            let sv :=
              match result.visualAction with
              | some va =>
                  if va = "" then s1
                  else { s1 with visualState := s1.visualState ++ [va] }
              | none => s1
            if s.currentStepIndex < lvl.steps.length - 1 then
              let nextStep := lvl.steps.getD (s.currentStepIndex + 1)
                ⟨"", "", "", ""⟩
              let nextMsg : ChatMessage :=
                { role := .model,
                  text := t.executionSuccess ++ "! " ++ t.nextStep ++ " " ++
                    nextStep.instruction }
              { sv with
                  currentStepIndex := s.currentStepIndex + 1,
                  guideFocus := .INPUT,
                  chatHistory := sv.chatHistory ++ [nextMsg] }
            else
              let finishMsg : ChatMessage := { role := .model, text := t.allStepsDone }
              { sv with
                  isLevelFinished := true,
                  guideFocus := .FINISH,
                  chatHistory := sv.chatHistory ++ [finishMsg] }
          else
            let explanation :=
              match explainOutcome with
              | some ex => if ex = "" then t.errorDetected else ex
              | none => t.errorDetected
            let errorMsg : ChatMessage := { role := .model, text := explanation }
            { s1 with
                guideFocus := .INPUT,
                chatHistory := s1.chatHistory ++ [errorMsg] }
        { s2 with isRunningCode := false }

/-- `!input.trim()`: the trimmed buffer is empty exactly when every
character is whitespace. -/
def isBlank (s : String) : Bool :=
  s.data.all Char.isWhitespace

/-- `handleSendMessage`: guard `if (!input.trim() || !currentLevel ||
isLoading) return`; append the user message, clear the input, append the
judged reply; on `isStepComplete` with truthy code, grow the code buffer
and move the guide focus to the run button.  The transient `setIsLoading`
toggle is collapsed. -/
def handleSendMessage (lang : Lang) (s : AppState)
    (outcome : Except String TutorJudgement) : AppState :=
  if isBlank s.input ∨ s.currentLevel.isNone ∨ s.isLoading then s
  else
    let userMsg : ChatMessage := { role := .user, text := s.input }
    let response := generateTutorResponse lang outcome
    let botMsg : ChatMessage :=
      { role := .model,
        text := response.message,
        pythonCode := response.pythonCode,
        isCorrect := some response.isStepComplete,
        visualAction := response.visualAction }
    let s1 := { s with
      chatHistory := s.chatHistory ++ [userMsg, botMsg],
      input := "" }
    if response.isStepComplete then
      match response.pythonCode with
      | some pc =>
          if pc = "" then s1
          else { s1 with code := s1.code ++ "\n" ++ pc, guideFocus := .RUN }
      | none => s1
    else s1

/-! ### Concrete fixtures used by the closed theorems. -/

def tDemo : Translations :=
  { running := "Running...",
    executionError := "Execution error",
    errorDetected := "An error was detected",
    executionSuccess := "Success",
    nextStep := "Next step:",
    allStepsDone := "All steps done" }

def demoStep1 : LevelStep :=
  { instruction := "make the screen black",
    hint := "ask for a black screen",
    expectedAction := "FILL_BLACK",
    pythonSnippet := "screen.fill((0, 0, 0))" }

def demoStep2 : LevelStep :=
  { instruction := "draw the hero",
    hint := "ask for a blue circle",
    expectedAction := "DRAW_HERO",
    pythonSnippet := "pygame.draw.circle(screen, blue, center, 30)" }

def demoLevel1 : Level := { id := 1, worldId := 1, title := "First Window", steps := [demoStep1] }

def demoLevel2 : Level :=
  { id := 2, worldId := 1, title := "Hero", steps := [demoStep1, demoStep2] }

/-- A playing-session state sitting at step 0 of the two-step level with a
non-empty code buffer, ready to run. -/
def stateRun : AppState :=
  { currentLevel := some demoLevel2,
    currentStepIndex := 0,
    chatHistory := [],
    input := "",
    isLoading := false,
    code := "screen.fill((0, 0, 255))",
    visualState := [],
    isLevelFinished := false,
    guideFocus := .RUN,
    isRunningCode := false,
    consoleOutput := "" }

/-- The same session but with an empty code buffer. -/
def stateEmptyCode : AppState := { stateRun with code := "" }

/-- The same session but with a run already outstanding. -/
def stateBusy : AppState := { stateRun with isRunningCode := true }

/-- An execution result whose code ran (no syntax error) but missed the
level objective: `isSuccess: true`, `isObjectiveMet: false`. -/
def resultNotMet : ExecResult :=
  { consoleOutput := "Process finished with exit code 0.",
    isSuccess := true,
    isObjectiveMet := false,
    drawingCommands := [] }

/-! ### Theorems about the state machine. -/

/-- C1: evaluation at the failing input.  `handleRunCode` gates the step
advance on `result.isSuccess` alone, so a result with `isSuccess: true` and
`isObjectiveMet: false` still advances the step index from 0 to 1 — the
required `isObjectiveMet` conjunct of the spec is never consulted, although
the execution contract computes it precisely for that purpose. -/
theorem handleRunCode_advances_without_objective :
    resultNotMet.isSuccess = true ∧
    resultNotMet.isObjectiveMet = false ∧
    stateRun.currentStepIndex = 0 ∧
    (handleRunCode tDemo stateRun (.ok resultNotMet) none).currentStepIndex = 1 :=
  ⟨rfl, rfl, rfl, rfl⟩

/-- C2 counterexample: with an empty code buffer (and no run outstanding)
the run request is NOT ignored — the guard `if (!currentLevel ||
isRunningCode)` never inspects the buffer, so the adapter is called and the
state changes. -/
theorem handleRunCode_empty_buffer_not_ignored :
    stateEmptyCode.code = "" ∧
    stateEmptyCode.isRunningCode = false ∧
    runRequestIssuesCall stateEmptyCode = true ∧
    handleRunCode tDemo stateEmptyCode (.ok resultNotMet) none ≠ stateEmptyCode := by
  refine ⟨rfl, rfl, rfl, ?_⟩
  intro h
  have := congrArg AppState.currentStepIndex h
  simp [handleRunCode, stateEmptyCode, stateRun, runPythonCode, resultNotMet,
    demoLevel2] at this

/-- C2 amended: a run request is ignored — no adapter call issued, state
unchanged — whenever a run is already outstanding or no level is selected;
an empty code buffer does not suppress the run. -/
theorem handleRunCode_ignored_when_running_or_no_level (t : Translations)
    (s : AppState) (o : Except String ExecResult) (eo : Option String)
    (h : s.isRunningCode = true ∨ s.currentLevel = none) :
    handleRunCode t s o eo = s ∧ runRequestIssuesCall s = false := by
  rcases h with h | h
  · constructor
    · unfold handleRunCode
      cases hc : s.currentLevel with
      | none => rfl
      | some lvl => rw [h]; rfl
    · unfold runRequestIssuesCall
      rw [h]
      simp
  · constructor
    · unfold handleRunCode
      rw [h]
    · unfold runRequestIssuesCall
      rw [h]
      rfl

/-- C2 amended, witness: an outstanding run suppresses the duplicate. -/
theorem handleRunCode_ignored_witness :
    handleRunCode tDemo stateBusy (.ok resultNotMet) none = stateBusy ∧
    runRequestIssuesCall stateBusy = false :=
  handleRunCode_ignored_when_running_or_no_level tDemo stateBusy
    (.ok resultNotMet) none (Or.inl rfl)

/-- C3: when the tutoring call fails (adapter or decode), the chat history
gains exactly the user's own message plus one canned localized fallback
message — whose text is the fixed `tutorFallbackText`, independent of the
raw error `e` — and the guide focus stays on the input. -/
theorem handleSendMessage_failure_appends_one_fallback
    (lang : Lang) (s : AppState) (e : String) (lvl : Level)
    (h1 : s.guideFocus = .INPUT) (h2 : isBlank s.input = false)
    (h3 : s.currentLevel = some lvl) (h4 : s.isLoading = false) :
    (handleSendMessage lang s (.error e)).chatHistory =
      s.chatHistory ++
        [{ role := .user, text := s.input },
         { role := .model, text := tutorFallbackText lang, isCorrect := some false }] ∧
    (handleSendMessage lang s (.error e)).guideFocus = GuideFocus.INPUT := by
  have hguard : ¬ (isBlank s.input = true ∨ s.currentLevel.isNone = true ∨
      s.isLoading = true) := by
    rintro (h | h | h)
    · rw [h2] at h; exact absurd h (by simp)
    · rw [h3] at h; exact absurd h (by simp)
    · rw [h4] at h; exact absurd h (by simp)
  constructor
  · unfold handleSendMessage
    rw [if_neg hguard]
    rfl
  · unfold handleSendMessage
    rw [if_neg hguard]
    exact h1

/-- A session state about to submit its first prompt. -/
def stateAsk : AppState :=
  { currentLevel := some demoLevel1,
    currentStepIndex := 0,
    chatHistory := [],
    input := "please make a black screen",
    isLoading := false,
    code := "",
    visualState := [],
    isLevelFinished := false,
    guideFocus := .INPUT,
    isRunningCode := false,
    consoleOutput := "" }

/-- C3 witness at a concrete failing submission. -/
theorem handleSendMessage_failure_witness :
    isBlank stateAsk.input = false ∧
    ((handleSendMessage .en stateAsk (.error "HTTP 500")).chatHistory =
        stateAsk.chatHistory ++
          [{ role := .user, text := stateAsk.input },
           { role := .model, text := tutorFallbackText .en, isCorrect := some false }] ∧
      (handleSendMessage .en stateAsk (.error "HTTP 500")).guideFocus =
        GuideFocus.INPUT) :=
  ⟨by decide,
   handleSendMessage_failure_appends_one_fallback .en stateAsk "HTTP 500"
     demoLevel1 rfl (by decide) rfl rfl⟩

/-! ### Append-only visual state (C4). -/

/-- `handleSendMessage` never touches the visual batches. -/
lemma handleSendMessage_visualState (lang : Lang) (s : AppState)
    (o : Except String TutorJudgement) :
    (handleSendMessage lang s o).visualState = s.visualState := by
  unfold handleSendMessage
  split
  · rfl
  · dsimp only
    split
    · split
      · split <;> rfl
      · rfl
    · rfl

/-- `handleRunCode` can only append to the visual batches. -/
lemma handleRunCode_visualState (t : Translations) (s : AppState)
    (o : Except String ExecResult) (eo : Option String) :
    ∃ tail, (handleRunCode t s o eo).visualState = s.visualState ++ tail := by
  unfold handleRunCode
  generalize runPythonCode o = r
  cases hl : s.currentLevel with
  | none => exact ⟨[], by simp⟩
  | some lvl =>
      by_cases hrun : s.isRunningCode = true
      · simp only [hrun, if_true]
        exact ⟨[], by simp⟩
      · have hrun2 : s.isRunningCode = false := by
          cases hb : s.isRunningCode
          · rfl
          · exact absurd hb hrun
        simp only [hrun2, Bool.false_eq_true, if_false]
        cases hs : r.isSuccess
        · simp only [Bool.false_eq_true, if_false]
          exact ⟨[], by simp⟩
        · simp only [if_true]
          cases hva : r.visualAction with
          | none =>
              refine ⟨[], ?_⟩
              rw [apply_ite AppState.visualState]
              simp
          | some va =>
              by_cases hv : va = ""
              · refine ⟨[], ?_⟩
                simp only [hv, if_true]
                rw [apply_ite AppState.visualState]
                simp
              · refine ⟨[va], ?_⟩
                simp only [hv, if_false]
                rw [apply_ite AppState.visualState]
                simp [hv]

/-- One user-visible operation inside a play session: a prompt submission or
a run request, each tagged with its adapter outcome. -/
inductive SessionOp where
  | send (lang : Lang) (outcome : Except String TutorJudgement)
  | run (outcome : Except String ExecResult) (explain : Option String)

def stepOp (t : Translations) (s : AppState) : SessionOp → AppState
  | .send lang o => handleSendMessage lang s o
  | .run o ex => handleRunCode t s o ex

def runOps (t : Translations) (s : AppState) : List SessionOp → AppState
  | [] => s
  | op :: rest => runOps t (stepOp t s op) rest

lemma stepOp_visualState (t : Translations) (s : AppState) (op : SessionOp) :
    ∃ tail, (stepOp t s op).visualState = s.visualState ++ tail := by
  cases op with
  | send lang o => exact ⟨[], by simp [stepOp, handleSendMessage_visualState]⟩
  | run o ex => exact handleRunCode_visualState t s o ex

/-- C4: across any sequence of tutoring and execution operations within a
play session, the visual batch list is only ever extended at the end — the
old list is literally a prefix of the new one (no batch mutated or
rewritten), and its length never decreases. -/
theorem visualState_append_only (t : Translations) (s : AppState)
    (ops : List SessionOp) :
    (∃ tail, (runOps t s ops).visualState = s.visualState ++ tail) ∧
    s.visualState.length ≤ (runOps t s ops).visualState.length := by
  have h : ∃ tail, (runOps t s ops).visualState = s.visualState ++ tail := by
    induction ops generalizing s with
    | nil => exact ⟨[], by simp [runOps]⟩
    | cons op rest ih =>
        rcases stepOp_visualState t s op with ⟨t1, h1⟩
        rcases ih (stepOp t s op) with ⟨t2, h2⟩
        exact ⟨t1 ++ t2, by rw [runOps, h2, h1, List.append_assoc]⟩
  rcases h with ⟨tail, htail⟩
  exact ⟨⟨tail, htail⟩, by rw [htail]; simp⟩

/-! ## Code assist engine (CodeEditor.updateSuggestions)

Character classes of the two regexes
`/([a-zA-Z_][a-zA-Z0-9_]*)$/` and `/([a-zA-Z_][a-zA-Z0-9_]*)\s*=/g`. -/

def isIdentStartChar (c : Char) : Bool :=
  c.isAlpha || c = '_'

def isIdentChar (c : Char) : Bool :=
  c.isAlphanum || c = '_'

/-- JavaScript `String.prototype.startsWith` (modelled on character lists so
that proofs and the kernel can evaluate it). -/
def strStartsWith (s pre : String) : Bool :=
  pre.data.isPrefixOf s.data

/-- The fixed keyword pool of the editor (`STATIC_KEYWORDS`). -/
def STATIC_KEYWORDS : List String :=
  ["import", "pygame", "sys", "def", "class", "return", "if", "else", "elif",
   "while", "for", "in", "print", "True", "False", "None", "and", "or", "not",
   "screen", "display", "set_mode", "flip", "update", "caption",
   "draw", "circle", "rect", "line", "fill", "blit",
   "event", "quit", "get", "type", "key", "main", "init", "time", "Clock", "tick"]

/-- Iterated `variableRegex.exec(value)`: scan for the leftmost match of
`identifier \s* =`, capture the identifier, continue after the `=`.  A
candidate run is the maximal run of identifier characters; regex
backtracking cannot shorten it because an identifier character is neither
whitespace nor `=`.  The fuel is the character count: every step consumes
at least one character. -/
def scanVarsAux : Nat → List Char → List String
  | 0, _ => []
  | _, [] => []
  | fuel + 1, c :: rest =>
      if isIdentStartChar c then
        let run := (c :: rest).takeWhile isIdentChar
        let after := (c :: rest).dropWhile isIdentChar
        let after2 := after.dropWhile Char.isWhitespace
        match after2 with
        | '=' :: tail => String.mk run :: scanVarsAux fuel tail
        | _ => scanVarsAux fuel rest
      else scanVarsAux fuel rest

/-- The assignment-style identifiers discovered in the buffer. -/
def scanVars (value : String) : List String :=
  scanVarsAux value.data.length value.data

/-- `Array.from(new Set(list))`: deduplicate keeping first occurrences in
order. -/
def dedupFirstAux (seen : List String) : List String → List String
  | [] => []
  | x :: xs =>
      if seen.contains x then dedupFirstAux seen xs
      else x :: dedupFirstAux (x :: seen) xs

def dedupFirst (l : List String) : List String :=
  dedupFirstAux [] l

/-- `allCandidates = Array.from(new Set([...STATIC_KEYWORDS,
...foundVariables]))`. -/
def suggestionPool (value : String) : List String :=
  dedupFirst (STATIC_KEYWORDS ++ scanVars value)

/-- `/([a-zA-Z_][a-zA-Z0-9_]*)$/` on the text before the caret: the maximal
trailing run of identifier characters, shortened from the left to the
leftmost position holding a letter or underscore (the regex's first
character class); no match when no such position exists. -/
def trailingWord (before : String) : Option String :=
  let run := (before.data.reverse.takeWhile isIdentChar).reverse
  let trimmed := run.dropWhile Char.isDigit
  if trimmed.isEmpty then none else some (String.mk trimmed)

/-- `updateSuggestions(value, caretPos)`, returning the displayed candidate
list: no trailing word means no candidates; otherwise filter the pool to
entries that start with the word and differ from it, capped at 5 in pool
order.  (An empty filtered list only hides the suggestion box, which is the
same observable outcome as no candidates.) -/
def updateSuggestions (value : String) (caretPos : Nat) : List String :=
  let textBeforeCaret := String.mk (value.data.take caretPos)
  match trailingWord textBeforeCaret with
  | none => []
  | some word =>
      ((suggestionPool value).filter
        (fun k => strStartsWith k word && k != word)).take 5

lemma dedupFirstAux_sublist (l : List String) :
    ∀ seen, (dedupFirstAux seen l).Sublist l := by
  induction l with
  | nil => intro seen; exact List.Sublist.refl []
  | cons x xs ih =>
      intro seen
      unfold dedupFirstAux
      by_cases h : seen.contains x = true
      · rw [if_pos h]
        exact (ih seen).trans (List.sublist_cons_self x xs)
      · rw [if_neg h]
        exact (ih (x :: seen)).cons₂ x

/-- C9: every code-assist candidate is a pool entry that starts with the
extracted word and is not exactly equal to it; at most 5 candidates are
produced; pool order is preserved (the candidate list is a sublist of the
pool); and concretely, buffer "scre" with the caret at its end suggests the
pool entry "screen", while buffer "screen" (an exact match) does not. -/
theorem updateSuggestions_spec (value : String) (caretPos : Nat) (word : String)
    (h : trailingWord (String.mk (value.data.take caretPos)) = some word) :
    (∀ k ∈ updateSuggestions value caretPos,
        k ∈ suggestionPool value ∧ strStartsWith k word = true ∧ k ≠ word) ∧
    (updateSuggestions value caretPos).length ≤ 5 ∧
    (updateSuggestions value caretPos).Sublist (suggestionPool value) ∧
    "screen" ∈ updateSuggestions "scre" 4 ∧
    "screen" ∉ updateSuggestions "screen" 6 := by
  have hdef : updateSuggestions value caretPos =
      ((suggestionPool value).filter
        (fun k => strStartsWith k word && k != word)).take 5 := by
    unfold updateSuggestions
    dsimp only
    rw [h]
  refine ⟨?_, ?_, ?_, ?_, ?_⟩
  · intro k hk
    rw [hdef] at hk
    have hk2 : k ∈ (suggestionPool value).filter
        (fun k => strStartsWith k word && k != word) := List.take_subset 5 _ hk
    rcases List.mem_filter.mp hk2 with ⟨hmem, hcond⟩
    simp only [Bool.and_eq_true] at hcond
    rcases hcond with ⟨hsw, hne⟩
    exact ⟨hmem, hsw, by simpa using hne⟩
  · rw [hdef]
    exact List.length_take_le 5 _
  · rw [hdef]
    exact (List.take_sublist 5 _).trans (List.filter_sublist _)
  · decide
  · decide

/-- C9 witness at the concrete buffers of the spec's example. -/
theorem updateSuggestions_spec_witness :
    (∀ k ∈ updateSuggestions "scre" 4,
        k ∈ suggestionPool "scre" ∧ strStartsWith k "scre" = true ∧ k ≠ "scre") ∧
    (updateSuggestions "scre" 4).length ≤ 5 ∧
    (updateSuggestions "scre" 4).Sublist (suggestionPool "scre") ∧
    "screen" ∈ updateSuggestions "scre" 4 ∧
    "screen" ∉ updateSuggestions "screen" 6 :=
  updateSuggestions_spec "scre" 4 "scre" (by decide)

end Vibe
